import Mathlib

/-!
Verification development for the TruthOrDare repository (Go).

The core under study is `database.go`:
  - `GetQuestions` builds a parameterized SQL query from optional filters
    (language, type, tag list, match-all flag) and maps result rows to
    `Question` values, splitting the `GROUP_CONCAT` tag column on commas.
  - `AddQuestion` inserts a question, its (possibly new) tags and the
    question-tag association rows inside one transaction.

The relational storage (schema from `init.sql`: tables `questions`,
`tags` with `name UNIQUE`, `question_tags` with primary key
`(question_id, tag_id)`) is embedded as lists of rows, and the SQL
query produced by `GetQuestions` is given its MySQL semantics over that
storage. The query-text assembly itself is embedded separately
(`buildQuery`) to reason about placeholders and argument order.
Strings are Lean strings; character-level operations (the comma split
of `strings.Split`, `GROUP_CONCAT` joining) are defined on `String.data`.
-/

namespace TruthOrDare

/-- A row of the `questions` table (`questions(id, language, type, task)`).
The Go field `Type` is called `qtype` here because `type` is reserved. -/
structure QuestionRow where
  id : Nat
  language : String
  qtype : String
  task : String
deriving DecidableEq, Repr

/-- A row of the `tags` table (`tags(id, name)`). -/
structure TagRow where
  id : Nat
  name : String
deriving DecidableEq, Repr

/-- The relational storage: the three tables of `init.sql`.
`questionTags` holds `(question_id, tag_id)` pairs. -/
structure DB where
  questions : List QuestionRow
  tags : List TagRow
  questionTags : List (Nat × Nat)
deriving DecidableEq, Repr

/-- The domain record `Question` of `main.go` (ID, Language, Type, Task, Tags). -/
structure Question where
  id : Nat
  language : String
  qtype : String
  task : String
  tags : List String
deriving DecidableEq, Repr

/-! ## Character-level comma split and join

`strings.Split(s, ",")` from `GetQuestions` (database.go line 167) and the
comma-joining behaviour of MySQL `GROUP_CONCAT(t.name)`. -/

/-- Split a character list at every comma; embeds `strings.Split(s, ",")`. -/
def splitCommaChars : List Char → List (List Char)
  | [] => [[]]
  | c :: cs =>
    match splitCommaChars cs with
    | [] => [[]]
    | part :: parts => if c = ',' then [] :: part :: parts else (c :: part) :: parts

/-- Join character lists with a comma between consecutive parts; the
character-level semantics of `GROUP_CONCAT` with the default separator. -/
def joinCommaChars : List (List Char) → List Char
  | [] => []
  | n :: ns =>
    match ns with
    | [] => n
    | _ :: _ => n ++ ',' :: joinCommaChars ns

/-- `strings.Split(s, ",")` on Lean strings. -/
def splitComma (s : String) : List String :=
  (splitCommaChars s.data).map (fun l => ⟨l⟩)

/-- MySQL `GROUP_CONCAT(t.name)`: `NULL` (`none`) for an empty group,
otherwise the comma-joined names. -/
def groupConcat : List String → Option String
  | [] => none
  | n :: ns => some ⟨joinCommaChars ((n :: ns).map String.data)⟩

/-- database.go lines 166-170: a `NULL` tag column becomes the empty list,
a non-null one is split on commas. -/
def decodeTags : Option String → List String
  | some s => splitComma s
  | none => []

/-! ## Semantics of the query built by `GetQuestions` -/

/-- One result row of the SELECT: question columns plus the (nullable)
`GROUP_CONCAT(t.name)` column. -/
structure Row where
  id : Nat
  language : String
  qtype : String
  task : String
  tagsCol : Option String
deriving DecidableEq, Repr

/-- Names of the tags linked to question `qid` through `question_tags`,
in association order (the `LEFT JOIN question_tags ... LEFT JOIN tags`). -/
def linkedTagNames (db : DB) (qid : Nat) : List String :=
  (db.questionTags.filter (fun p => decide (p.1 = qid))).filterMap
    (fun p => (db.tags.find? (fun t => decide (t.id = p.2))).map TagRow.name)

/-- The `q.language = ?` condition, absent when the filter is empty
(database.go lines 109-112). -/
def langOK (language : String) (qr : QuestionRow) : Bool :=
  decide (language = "") || decide (qr.language = language)

/-- The `q.type = ?` condition, absent when the filter is empty
(database.go lines 114-117). -/
def typeOK (qType : String) (qr : QuestionRow) : Bool :=
  decide (qType = "") || decide (qr.qtype = qType)

/-- `COUNT(DISTINCT t.name)` over the association rows of one question that
satisfy `t.name IN (tags)` — the HAVING clause of the ALL-mode subquery. -/
def distinctMatchedCount (linked tags : List String) : Nat :=
  ((linked.filter (fun n => decide (n ∈ tags))).dedup).length

/-- The result row produced for one question row, if any, after the
language/type conditions already passed. Mirrors the three query shapes of
database.go lines 119-150:
  - ALL mode (`len(tags) > 0`, `MatchAllTags`): the INNER JOIN on the
    subquery keeps the question iff the distinct matched-tag count equals
    `len(tags)`; the outer LEFT JOIN then concatenates all linked tags.
    This branch is the INTENDED reading of the assembled query, the one
    obtained when every argument binds to the placeholder it was written
    for. The executed query only realises it when no language or type
    filter is present: otherwise the join fragment precedes the WHERE
    clause in the query text while the language/type values precede the
    tag values in the argument list, and positional binding sends every
    value to a wrong placeholder (see `textOrderArgs`), generally
    emptying the result.
  - ANY mode (`len(tags) > 0`): `t.name IN (tags)` filters the joined rows
    before grouping, so the group exists iff some linked tag matches, and
    `GROUP_CONCAT` sees only the matched tags.
  - no tag filter: every question row yields a group over all linked tags. -/
def rowOf (db : DB) (tags : List String) (matchAll : Bool) (qr : QuestionRow) : Option Row :=
  let linked := linkedTagNames db qr.id
  if tags.length > 0 then
    if matchAll then
      if distinctMatchedCount linked tags = tags.length then
        some ⟨qr.id, qr.language, qr.qtype, qr.task, groupConcat linked⟩
      else none
    else
      let matched := linked.filter (fun n => decide (n ∈ tags))
      match matched with
      | [] => none
      | _ :: _ => some ⟨qr.id, qr.language, qr.qtype, qr.task, groupConcat matched⟩
  else
    some ⟨qr.id, qr.language, qr.qtype, qr.task, groupConcat linked⟩

/-- The rows returned by executing the query of `GetQuestions` over `db`:
one group per question row passing the WHERE conditions (`GROUP BY q.id`). -/
def queryRows (db : DB) (language qType : String) (tags : List String)
    (matchAll : Bool) : List Row :=
  db.questions.filterMap (fun qr =>
    if langOK language qr && typeOK qType qr then rowOf db tags matchAll qr else none)

/-- database.go lines 158-171: scan each row into a `Question`, decoding the
tag column. -/
def decodeRow (r : Row) : Question :=
  ⟨r.id, r.language, r.qtype, r.task, decodeTags r.tagsCol⟩

/-- `GetQuestions(language, qType, tags, config)` (database.go lines 99-175)
on the success path: the decoded result rows. `matchAll` is
`config != nil && config.MatchAllTags`. -/
def getQuestions (db : DB) (language qType : String) (tags : List String)
    (matchAll : Bool) : List Question :=
  (queryRows db language qType tags matchAll).map decodeRow

/-- The same query with the tag-filtering logic removed entirely; used to
state that an empty tag list disables tag filtering. -/
def getQuestionsNoTagFilter (db : DB) (language qType : String) : List Question :=
  db.questions.filterMap (fun qr =>
    if langOK language qr && typeOK qType qr then
      some (decodeRow ⟨qr.id, qr.language, qr.qtype, qr.task,
        groupConcat (linkedTagNames db qr.id)⟩)
    else none)

/-! ## The query text assembled by `GetQuestions`

database.go lines 100-150: the query template is built by string
concatenation of fixed fragments; user-supplied values only ever enter the
argument list. Whitespace of the Go source literals is condensed. -/

/-- A query argument: `args` in the Go code holds strings (the filters and
tag names) and one integer (`len(tags)` in ALL mode). -/
inductive Arg where
  | str : String → Arg
  | int : Nat → Arg
deriving DecidableEq, Repr

/-- The fixed SELECT / FROM / LEFT JOIN prefix (database.go lines 100-104). -/
def baseQuerySelect : String :=
  "SELECT DISTINCT q.id, q.language, q.type, q.task, GROUP_CONCAT(t.name) as tags FROM questions q LEFT JOIN question_tags qt ON q.id = qt.question_id LEFT JOIN tags t ON qt.tag_id = t.id"

/-- `strings.Repeat(",?", n)`. -/
def repeatCommaQ : Nat → String
  | 0 => ""
  | n + 1 => ",?" ++ repeatCommaQ n

/-- The ALL-mode INNER JOIN fragment for a tag list of length `n`
(database.go lines 122-131); `strings.Repeat(",?", len(tags)-1)` fills
the IN list. -/
def allModeJoin (n : Nat) : String :=
  " INNER JOIN ( SELECT qt.question_id FROM question_tags qt INNER JOIN tags t ON qt.tag_id = t.id WHERE t.name IN (?" ++
    repeatCommaQ (n - 1) ++
    ") GROUP BY qt.question_id HAVING COUNT(DISTINCT t.name) = ? ) matching_tags ON q.id = matching_tags.question_id"

/-- The ANY-mode WHERE condition for a tag list of length `n`
(database.go line 139). -/
def anyModeCond (n : Nat) : String :=
  "t.name IN (?" ++ repeatCommaQ (n - 1) ++ ")"

/-- `strings.Join(conds, " AND ")`. -/
def joinAnd : List String → String
  | [] => ""
  | c :: cs =>
    match cs with
    | [] => c
    | _ :: _ => c ++ " AND " ++ joinAnd cs

/-- The query builder of `GetQuestions` (database.go lines 106-150):
conditionally collects WHERE conditions and arguments for the language and
type filters, appends the tag-filter join or condition, and closes with
`GROUP BY q.id`. Returns the template and the ordered argument list. -/
def buildQuery (language qType : String) (tags : List String) (matchAll : Bool) :
    String × List Arg :=
  let condsL : List String := if language = "" then [] else ["q.language = ?"]
  let argsL : List Arg := if language = "" then [] else [Arg.str language]
  let condsT : List String := if qType = "" then [] else ["q.type = ?"]
  let argsT : List Arg := if qType = "" then [] else [Arg.str qType]
  let base1 : String :=
    if tags.length > 0 then
      if matchAll then baseQuerySelect ++ allModeJoin tags.length else baseQuerySelect
    else baseQuerySelect
  let condsTag : List String :=
    if tags.length > 0 then
      if matchAll then [] else [anyModeCond tags.length]
    else []
  let argsTag : List Arg :=
    if tags.length > 0 then
      if matchAll then tags.map Arg.str ++ [Arg.int tags.length] else tags.map Arg.str
    else []
  let conds := condsL ++ condsT ++ condsTag
  let base2 := if conds.length > 0 then base1 ++ " WHERE " ++ joinAnd conds else base1
  (base2 ++ " GROUP BY q.id", argsL ++ argsT ++ argsTag)

/-- Number of `?` placeholders in a piece of query text. -/
def countQ (s : String) : Nat := s.data.count '?'

/-- The argument values laid out in the order in which their placeholders
appear in the query TEXT. The fragments enter the text in this order
(database.go): the ALL-mode join fragment — carrying the tag-name
placeholders of its IN list and then the count placeholder of its HAVING
clause — is appended at line 122, before the WHERE clause is appended at
line 147 with the language, type and ANY-mode tag conditions in that
order. The argument list built alongside (`buildQuery ... .2`) instead
starts with the language and type values (lines 109-117), so in ALL mode
with a language or type filter the two orders disagree and positional
binding executes the query with the wrong values in each placeholder. -/
def textOrderArgs (language qType : String) (tags : List String)
    (matchAll : Bool) : List Arg :=
  (if tags.length > 0 then
    (if matchAll then tags.map Arg.str ++ [Arg.int tags.length] else [])
    else []) ++
  (if language = "" then [] else [Arg.str language]) ++
  (if qType = "" then [] else [Arg.str qType]) ++
  (if tags.length > 0 then
    (if matchAll then [] else tags.map Arg.str)
    else [])

/-! ## Row scanning with possible driver failures

database.go lines 152-174: query execution may fail (line 153), each
`rows.Scan` may fail (line 162), and the row iteration itself may fail.
Per the `database/sql` contract, an iteration failure makes `rows.Next()`
return `false` and records the error for `rows.Err()` — which
`GetQuestions` never calls, so the loop ends as if the rows were
exhausted. Driver failures are modelled by fault oracles consumed one
entry per loop iteration: `nextFaults` makes `rows.Next()` fail before
row `i` is delivered, `scanFaults` makes the scan of row `i` fail. -/

/-- The scan loop of `GetQuestions`: while `rows.Next()` succeeds, decode
rows one by one, aborting with the Go error message on a scan fault. A
`Next`-level fault ends the loop silently and the rows collected so far
are returned as a success, because the code has no `rows.Err()` check. -/
def scanRows : List Row → List Bool → List Bool → Except String (List Question)
  | [], _, _ => .ok []
  | r :: rs, nf, sf =>
    if nf.headD false then .ok []
    else if sf.headD false then .error "failed to parse question"
    else
      match scanRows rs nf.tail sf.tail with
      | .error e => .error e
      | .ok qs => .ok (decodeRow r :: qs)

/-- `GetQuestions` including the failure paths: a query-execution fault
yields the fetch error (database.go line 154), otherwise the rows are
scanned under the iteration- and scan-fault oracles. -/
def runGetQuestions (db : DB) (language qType : String) (tags : List String)
    (matchAll : Bool) (queryFault : Bool) (nextFaults scanFaults : List Bool) :
    Except String (List Question) :=
  if queryFault then .error "failed to fetch questions"
  else scanRows (queryRows db language qType tags matchAll) nextFaults scanFaults

/-! ## The write path: `AddQuestion` (database.go lines 225-272)

The transaction is modelled by threading a transaction-local copy of the
storage (`cur`); only a successful `Commit` publishes it, every error path
calls `Rollback` and leaves the storage untouched. Fallible driver calls
(`Begin`, `Exec`, `LastInsertId`, `QueryRow`, `Commit`) consume one entry
of a fault oracle each, in program order; additionally the insert into
`question_tags` fails when the pair already exists, per the primary key
`(question_id, tag_id)` of `init.sql`. -/

/-- Auto-increment identifier for a new `questions` row. -/
def freshQuestionId (db : DB) : Nat :=
  db.questions.foldr (fun q acc => max q.id acc) 0 + 1

/-- Auto-increment identifier for a new `tags` row. -/
def freshTagId (db : DB) : Nat :=
  db.tags.foldr (fun t acc => max t.id acc) 0 + 1

/-- `INSERT INTO question_tags (question_id, tag_id) VALUES (?, ?)`
(database.go lines 263-268): fails on an injected driver fault or when the
pair violates the primary key. -/
def insertAssoc (cur : DB) (qid tid : Nat) (fault : Bool) : Except String DB :=
  if fault then .error "failed to insert question tag"
  else if (qid, tid) ∈ cur.questionTags then .error "failed to insert question tag"
  else .ok ⟨cur.questions, cur.tags, cur.questionTags ++ [(qid, tid)]⟩

/-- The tag loop of `AddQuestion` (database.go lines 244-269): for each tag
name, look it up (`QueryRow ... Scan`), insert it if absent, then insert
the association row. Returns the transaction-local storage and the
remaining fault oracle on success. -/
def processTags (qid : Nat) : List String → DB → List Bool → Except String (DB × List Bool)
  | [], cur, fs => .ok (cur, fs)
  | tag :: rest, cur, fs =>
    if fs.headD false then .error "failed to query tag"
    else
      match cur.tags.find? (fun t => decide (t.name = tag)) with
      | some t =>
        match insertAssoc cur qid t.id (fs.tail.headD false) with
        | .error e => .error e
        | .ok cur2 => processTags qid rest cur2 fs.tail.tail
      | none =>
        if fs.tail.headD false then .error "failed to insert tag"
        else
          let tid := freshTagId cur
          let cur1 : DB := ⟨cur.questions, cur.tags ++ [⟨tid, tag⟩], cur.questionTags⟩
          if fs.tail.tail.headD false then .error "failed to get tag ID"
          else
            match insertAssoc cur1 qid tid (fs.tail.tail.tail.headD false) with
            | .error e => .error e
            | .ok cur2 => processTags qid rest cur2 fs.tail.tail.tail.tail

/-- `AddQuestion(q)` (database.go lines 225-272): begin a transaction,
insert the question row, read its generated identifier, run the tag loop,
then commit. The result is the storage after the call together with the
returned error, if any; every error path rolls the transaction back, so
the storage component is the original `db` there. -/
def addQuestion (db : DB) (q : Question) (faults : List Bool) : DB × Option String :=
  if faults.headD false then (db, some "failed to begin transaction")
  else
    let fs := faults.tail
    if fs.headD false then (db, some "failed to insert question")
    else
      let qid := freshQuestionId db
      let cur : DB := ⟨db.questions ++ [⟨qid, q.language, q.qtype, q.task⟩], db.tags, db.questionTags⟩
      if fs.tail.headD false then (db, some "failed to get last insert ID")
      else
        match processTags qid q.tags cur fs.tail.tail with
        | .error e => (db, some e)
        | .ok (cur2, fs2) =>
          if fs2.headD false then (db, some "failed to commit transaction")
          else (cur2, none)

/-! ## Concrete storage instances used in witnesses and counterexamples -/

/-- The seed data of `init.sql`: four questions, three tags, five links. -/
def seedDB : DB :=
  ⟨[⟨1, "en", "truth", "Have you ever lied to your best friend?"⟩,
    ⟨2, "en", "dare", "Take a shot of vodka."⟩,
    ⟨3, "de", "truth", "Hast du jemals Essen gestohlen?"⟩,
    ⟨4, "de", "dare", "Tanze ohne Musik."⟩],
   [⟨1, "18+"⟩, ⟨2, "alcohol"⟩, ⟨3, "food"⟩],
   [(1, 1), (2, 2), (2, 1), (3, 3), (4, 1)]⟩

/-- One question linked to two tags `a` and `b`. -/
def twoTagDB : DB :=
  ⟨[⟨1, "en", "truth", "T"⟩], [⟨1, "a"⟩, ⟨2, "b"⟩], [(1, 1), (1, 2)]⟩

/-- One question with no linked tags. -/
def noTagDB : DB :=
  ⟨[⟨1, "en", "truth", "T"⟩], [], []⟩

/-- One question linked to a single tag whose name contains a comma. -/
def commaTagDB : DB :=
  ⟨[⟨1, "en", "truth", "T"⟩], [⟨1, "a,b"⟩], [(1, 1)]⟩

/-! ## Lemmas about the comma split and join -/

theorem splitCommaChars_cons (c : Char) (cs : List Char) :
    splitCommaChars (c :: cs) =
      match splitCommaChars cs with
      | [] => [[]]
      | part :: parts => if c = ',' then [] :: part :: parts else (c :: part) :: parts := rfl

theorem joinCommaChars_cons₂ (n m : List Char) (ms : List (List Char)) :
    joinCommaChars (n :: m :: ms) = n ++ ',' :: joinCommaChars (m :: ms) := rfl

theorem splitCommaChars_ne_nil (l : List Char) : splitCommaChars l ≠ [] := by
  induction l with
  | nil => simp [splitCommaChars]
  | cons c cs ih =>
    rw [splitCommaChars_cons]
    cases h : splitCommaChars cs with
    | nil => simp
    | cons part parts =>
      by_cases hc : c = ',' <;> simp [hc]

theorem splitCommaChars_no_comma (l : List Char) (h : ',' ∉ l) :
    splitCommaChars l = [l] := by
  induction l with
  | nil => rfl
  | cons c cs ih =>
    simp only [List.mem_cons, not_or] at h
    rw [splitCommaChars_cons, ih h.2]
    have hc : ¬ c = ',' := fun e => h.1 e.symm
    simp [hc]

theorem splitCommaChars_append_comma (n rest : List Char) (h : ',' ∉ n) :
    splitCommaChars (n ++ ',' :: rest) = n :: splitCommaChars rest := by
  induction n with
  | nil =>
    rw [List.nil_append, splitCommaChars_cons]
    cases hr : splitCommaChars rest with
    | nil => exact absurd hr (splitCommaChars_ne_nil rest)
    | cons part parts => simp
  | cons c cs ih =>
    simp only [List.mem_cons, not_or] at h
    rw [List.cons_append, splitCommaChars_cons, ih h.2]
    have hc : ¬ c = ',' := fun e => h.1 e.symm
    simp [hc]

theorem splitCommaChars_join (ns : List (List Char)) (hne : ns ≠ [])
    (h : ∀ n ∈ ns, ',' ∉ n) : splitCommaChars (joinCommaChars ns) = ns := by
  induction ns with
  | nil => exact absurd rfl hne
  | cons n ns ih =>
    cases ns with
    | nil =>
      show splitCommaChars n = [n]
      exact splitCommaChars_no_comma n (h n (List.mem_cons_self n []))
    | cons m ms =>
      rw [joinCommaChars_cons₂, splitCommaChars_append_comma n _ (h n (by simp))]
      rw [ih (by simp) (fun x hx => h x (List.mem_cons_of_mem n hx))]

theorem length_splitCommaChars (l : List Char) :
    (splitCommaChars l).length = l.count ',' + 1 := by
  induction l with
  | nil => rfl
  | cons c cs ih =>
    rw [splitCommaChars_cons]
    cases h : splitCommaChars cs with
    | nil => exact absurd h (splitCommaChars_ne_nil cs)
    | cons part parts =>
      rw [h] at ih
      simp only [List.length_cons] at ih
      by_cases hc : c = ','
      · subst hc
        simp [List.count_cons_self]
        omega
      · simp [hc, List.count_cons]
        omega

theorem count_joinCommaChars (n : List Char) (ns : List (List Char)) :
    (joinCommaChars (n :: ns)).count ',' =
      ((n :: ns).map (fun m => m.count ',')).sum + ns.length := by
  induction ns generalizing n with
  | nil => simp [joinCommaChars]
  | cons m ms ih =>
    rw [joinCommaChars_cons₂, List.count_append, List.count_cons_self, ih m]
    simp only [List.map_cons, List.sum_cons, List.length_cons]
    omega

theorem string_mk_data (s : String) : (⟨s.data⟩ : String) = s := by
  cases s
  rfl

/-- Decoding the concatenated column recovers the original names when none
of them contains a comma. -/
theorem decodeTags_groupConcat (names : List String)
    (h : ∀ n ∈ names, ',' ∉ n.data) : decodeTags (groupConcat names) = names := by
  cases names with
  | nil => rfl
  | cons n ns =>
    show splitComma ⟨joinCommaChars ((n :: ns).map String.data)⟩ = n :: ns
    unfold splitComma
    rw [splitCommaChars_join ((n :: ns).map String.data) (by simp)]
    · rw [List.map_map]
      have : (fun l => (⟨l⟩ : String)) ∘ String.data = id := by
        funext s
        exact string_mk_data s
      rw [this, List.map_id]
    · intro m hm
      rcases List.mem_map.mp hm with ⟨s, hs, rfl⟩
      exact h s hs

/-- Decoding the concatenated column cannot recover the original names when
one of them contains a comma: the split result is strictly longer. -/
theorem decodeTags_groupConcat_ne (names : List String) (hne : names ≠ [])
    (h : ∃ n ∈ names, ',' ∈ n.data) : decodeTags (groupConcat names) ≠ names := by
  cases names with
  | nil => exact absurd rfl hne
  | cons n ns =>
    intro heq
    have hlen : (decodeTags (groupConcat (n :: ns))).length = (n :: ns).length := by
      rw [heq]
    have hdecode : (decodeTags (groupConcat (n :: ns))).length =
        (joinCommaChars ((n :: ns).map String.data)).count ',' + 1 := by
      show (splitComma ⟨joinCommaChars ((n :: ns).map String.data)⟩).length = _
      unfold splitComma
      rw [List.length_map, length_splitCommaChars]
    have hcount := count_joinCommaChars n.data (ns.map String.data)
    rcases h with ⟨m, hm, hcm⟩
    have hpos : 1 ≤ m.data.count ',' := List.one_le_count_iff.mpr hcm
    have hsum : 1 ≤ ((n.data :: ns.map String.data).map (fun l => l.count ',')).sum := by
      have : m.data ∈ n.data :: ns.map String.data := by
        rcases List.mem_cons.mp hm with rfl | hmns
        · exact List.mem_cons_self _ _
        · exact List.mem_cons_of_mem _ (List.mem_map_of_mem String.data hmns)
      calc 1 ≤ m.data.count ',' := hpos
        _ ≤ _ := List.single_le_sum (fun x _ => Nat.zero_le x) _
              (List.mem_map_of_mem _ this)
    simp only [List.map_cons] at hdecode
    simp only [List.length_cons, List.length_map] at hlen hcount
    omega

/-! ## Membership in the `GetQuestions` result -/

/-- Unfolding lemma: an output question comes from exactly one storage
question row that passes the language and type conditions and whose tag
situation produces a result row. -/
theorem mem_getQuestions (db : DB) (language qType : String) (tags : List String)
    (matchAll : Bool) (out : Question) :
    out ∈ getQuestions db language qType tags matchAll ↔
      ∃ qr, qr ∈ db.questions ∧ langOK language qr = true ∧ typeOK qType qr = true ∧
        ∃ r, rowOf db tags matchAll qr = some r ∧ out = decodeRow r := by
  simp only [getQuestions, queryRows, List.mem_map, List.mem_filterMap]
  constructor
  · rintro ⟨r, ⟨qr, hqr, hf⟩, rfl⟩
    by_cases h : (langOK language qr && typeOK qType qr) = true
    · rw [if_pos h] at hf
      rw [Bool.and_eq_true] at h
      exact ⟨qr, hqr, h.1, h.2, r, hf, rfl⟩
    · rw [if_neg h] at hf
      cases hf
  · rintro ⟨qr, hqr, h1, h2, r, hr, rfl⟩
    refine ⟨r, ⟨qr, hqr, ?_⟩, rfl⟩
    rw [if_pos (by rw [h1, h2]; rfl)]
    exact hr

/-- In ALL mode with a non-empty tag list, the result row for a question
exists iff the HAVING condition holds, and then carries all linked tags. -/
theorem rowOf_all (db : DB) (tags : List String) (qr : QuestionRow)
    (hne : tags ≠ []) :
    rowOf db tags true qr =
      if distinctMatchedCount (linkedTagNames db qr.id) tags = tags.length then
        some ⟨qr.id, qr.language, qr.qtype, qr.task,
          groupConcat (linkedTagNames db qr.id)⟩
      else none := by
  unfold rowOf
  rw [if_pos (by simpa [List.length_pos] using hne), if_pos rfl]

/-- In ANY mode with a non-empty tag list, the result row for a question
exists iff some linked tag matches, and then carries only the matched tags. -/
theorem rowOf_any (db : DB) (tags : List String) (qr : QuestionRow)
    (hne : tags ≠ []) :
    rowOf db tags false qr =
      match (linkedTagNames db qr.id).filter (fun n => decide (n ∈ tags)) with
      | [] => none
      | m :: ms => some ⟨qr.id, qr.language, qr.qtype, qr.task,
          groupConcat (m :: ms)⟩ := by
  unfold rowOf
  rw [if_pos (by simpa [List.length_pos] using hne), if_neg (by simp)]
  cases hF : (linkedTagNames db qr.id).filter (fun n => decide (n ∈ tags)) with
  | nil => rfl
  | cons m ms => rfl

/-- With an empty tag list, every question reaching this point produces a
row carrying all linked tags, regardless of the match mode. -/
theorem rowOf_noTags (db : DB) (matchAll : Bool) (qr : QuestionRow) :
    rowOf db [] matchAll qr =
      some ⟨qr.id, qr.language, qr.qtype, qr.task,
        groupConcat (linkedTagNames db qr.id)⟩ := rfl

/-! ## Claim theorems -/

/-- C9: every question returned by `GetQuestions` that has no linked tags
has `Tags = []` (an empty list, not a missing field): the `GROUP_CONCAT`
column is `NULL` then, and the code splits the column only when it is
non-null, using the empty list otherwise. -/
theorem c9_untagged_question_empty_tags (db : DB) (language qType : String)
    (tags : List String) (matchAll : Bool) (out : Question)
    (hout : out ∈ getQuestions db language qType tags matchAll)
    (hlinked : linkedTagNames db out.id = []) : out.tags = [] := by
  rcases (mem_getQuestions db language qType tags matchAll out).mp hout with
    ⟨qr, hqr, h1, h2, r, hr, rfl⟩
  by_cases ht : tags = []
  · subst ht
    rw [rowOf_noTags] at hr
    injection hr with hr2
    subst hr2
    rw [show (decodeRow ⟨qr.id, qr.language, qr.qtype, qr.task,
      groupConcat (linkedTagNames db qr.id)⟩).id = qr.id from rfl] at hlinked
    show decodeTags (groupConcat (linkedTagNames db qr.id)) = []
    rw [hlinked]
    rfl
  · cases matchAll with
    | false =>
      rw [rowOf_any db tags qr ht] at hr
      cases hF : (linkedTagNames db qr.id).filter (fun n => decide (n ∈ tags)) with
      | nil => rw [hF] at hr; cases hr
      | cons m ms =>
        rw [hF] at hr
        injection hr with hr2
        subst hr2
        rw [show (decodeRow ⟨qr.id, qr.language, qr.qtype, qr.task,
          groupConcat (m :: ms)⟩).id = qr.id from rfl] at hlinked
        rw [hlinked] at hF
        cases hF
    | true =>
      rw [rowOf_all db tags qr ht] at hr
      by_cases hc : distinctMatchedCount (linkedTagNames db qr.id) tags = tags.length
      · rw [if_pos hc] at hr
        injection hr with hr2
        subst hr2
        rw [show (decodeRow ⟨qr.id, qr.language, qr.qtype, qr.task,
          groupConcat (linkedTagNames db qr.id)⟩).id = qr.id from rfl] at hlinked
        show decodeTags (groupConcat (linkedTagNames db qr.id)) = []
        rw [hlinked]
        rfl
      · rw [if_neg hc] at hr
        cases hr

/-- C9 witness: a stored question with no tag links is returned with an
empty tag list. -/
theorem c9_untagged_question_empty_tags_witness :
    (⟨1, "en", "truth", "T", []⟩ : Question) ∈ getQuestions noTagDB "" "" [] false ∧
    linkedTagNames noTagDB 1 = [] ∧
    (⟨1, "en", "truth", "T", []⟩ : Question).tags = [] :=
  ⟨by decide, by decide,
    c9_untagged_question_empty_tags noTagDB "" "" [] false _ (by decide) (by decide)⟩

/-- C10: with no tag filter, the returned tag list of a question equals the
list of tag names linked to it exactly when no linked name contains a
comma; a comma-containing linked name makes the comma split disagree. -/
theorem c10_comma_split_roundtrip (db : DB) (language qType : String) (out : Question)
    (hout : out ∈ getQuestions db language qType [] false) :
    out.tags = linkedTagNames db out.id ↔
      ∀ n ∈ linkedTagNames db out.id, ',' ∉ n.data := by
  rcases (mem_getQuestions db language qType [] false out).mp hout with
    ⟨qr, hqr, h1, h2, r, hr, rfl⟩
  rw [rowOf_noTags] at hr
  injection hr with hr2
  subst hr2
  show decodeTags (groupConcat (linkedTagNames db qr.id)) = linkedTagNames db qr.id ↔
    ∀ n ∈ linkedTagNames db qr.id, ',' ∉ n.data
  constructor
  · intro he n hn hc
    have hne2 : linkedTagNames db qr.id ≠ [] := by
      intro h0
      rw [h0] at hn
      cases hn
    exact decodeTags_groupConcat_ne _ hne2 ⟨n, hn, hc⟩ he
  · intro h
    exact decodeTags_groupConcat _ h

/-- C10 witness: the question of `commaTagDB` is linked to the single tag
`a,b`; its returned tag list is split at the comma and so differs from the
linked tag list. -/
theorem c10_comma_split_roundtrip_witness :
    (⟨1, "en", "truth", "T", ["a", "b"]⟩ : Question) ∈
        getQuestions commaTagDB "" "" [] false ∧
    ((⟨1, "en", "truth", "T", ["a", "b"]⟩ : Question).tags =
        linkedTagNames commaTagDB (⟨1, "en", "truth", "T", ["a", "b"]⟩ : Question).id ↔
      ∀ n ∈ linkedTagNames commaTagDB (⟨1, "en", "truth", "T", ["a", "b"]⟩ : Question).id,
        ',' ∉ n.data) :=
  ⟨by decide, c10_comma_split_roundtrip commaTagDB "" "" _ (by decide)⟩

/-- C2 counterexample: in ANY mode the `t.name IN (...)` WHERE condition
filters the joined rows before `GROUP_CONCAT`, so a question linked to the
tags `a` and `b`, queried with the tag filter `["a"]`, is returned with
`Tags = ["a"]` and not with its full linked tag list `["a", "b"]`. -/
theorem c2_full_tag_list_counterexample :
    ∃ out ∈ getQuestions twoTagDB "" "" ["a"] false,
      out.tags ≠ linkedTagNames twoTagDB out.id := by decide

/-- C2 amended: for every returned question whose linked tag names contain
no comma, the `Tags` field is the full linked tag list when the tag filter
is empty or when `MatchAllTags` is true; in ANY mode with a non-empty tag
filter it is exactly the list of linked tags that are in the filter. -/
theorem c2_tags_field_contents (db : DB) (language qType : String)
    (tags : List String) (matchAll : Bool) (out : Question)
    (hout : out ∈ getQuestions db language qType tags matchAll)
    (hcomma : ∀ n ∈ linkedTagNames db out.id, ',' ∉ n.data) :
    (matchAll = true ∨ tags = [] → out.tags = linkedTagNames db out.id) ∧
    (matchAll = false → tags ≠ [] →
      out.tags = (linkedTagNames db out.id).filter (fun n => decide (n ∈ tags))) := by
  rcases (mem_getQuestions db language qType tags matchAll out).mp hout with
    ⟨qr, hqr, h1, h2, r, hr, rfl⟩
  by_cases ht : tags = []
  · subst ht
    rw [rowOf_noTags] at hr
    injection hr with hr2
    subst hr2
    refine ⟨fun _ => ?_, fun _ h => absurd rfl h⟩
    show decodeTags (groupConcat (linkedTagNames db qr.id)) = linkedTagNames db qr.id
    exact decodeTags_groupConcat _ hcomma
  · cases matchAll with
    | true =>
      rw [rowOf_all db tags qr ht] at hr
      by_cases hc : distinctMatchedCount (linkedTagNames db qr.id) tags = tags.length
      · rw [if_pos hc] at hr
        injection hr with hr2
        subst hr2
        refine ⟨fun _ => ?_, fun hf => by cases hf⟩
        show decodeTags (groupConcat (linkedTagNames db qr.id)) = linkedTagNames db qr.id
        exact decodeTags_groupConcat _ hcomma
      · rw [if_neg hc] at hr
        cases hr
    | false =>
      rw [rowOf_any db tags qr ht] at hr
      cases hF : (linkedTagNames db qr.id).filter (fun n => decide (n ∈ tags)) with
      | nil => rw [hF] at hr; cases hr
      | cons m ms =>
        rw [hF] at hr
        injection hr with hr2
        subst hr2
        constructor
        · rintro (hf | hf)
          · cases hf
          · exact absurd hf ht
        · intro _ _
          show decodeTags (groupConcat (m :: ms)) =
            (linkedTagNames db qr.id).filter (fun n => decide (n ∈ tags))
          rw [← hF]
          refine decodeTags_groupConcat _ (fun n hn => ?_)
          exact hcomma n (List.mem_of_mem_filter hn)

/-- C2 amended witness: in ALL mode the second question of the seed data is
returned with its full linked tag list. -/
theorem c2_tags_field_contents_witness :
    (⟨2, "en", "dare", "Take a shot of vodka.", ["alcohol", "18+"]⟩ : Question) ∈
        getQuestions seedDB "en" "" ["18+", "alcohol"] true ∧
    ((true = true ∨ ["18+", "alcohol"] = ([] : List String) →
      (⟨2, "en", "dare", "Take a shot of vodka.", ["alcohol", "18+"]⟩ : Question).tags =
        linkedTagNames seedDB 2) ∧
     (true = false → ["18+", "alcohol"] ≠ ([] : List String) →
      (⟨2, "en", "dare", "Take a shot of vodka.", ["alcohol", "18+"]⟩ : Question).tags =
        (linkedTagNames seedDB 2).filter
          (fun n => decide (n ∈ ["18+", "alcohol"])))) :=
  ⟨by decide,
    c2_tags_field_contents seedDB "en" "" ["18+", "alcohol"] true _ (by decide) (by decide)⟩

/-- C6: with an empty tag list, `GetQuestions` ignores the match mode and
behaves exactly like the query with tag filtering removed entirely. -/
theorem c6_empty_tag_list_no_filter (db : DB) (language qType : String)
    (matchAll matchAll2 : Bool) :
    getQuestions db language qType [] matchAll = getQuestionsNoTagFilter db language qType ∧
    getQuestions db language qType [] matchAll = getQuestions db language qType [] matchAll2 := by
  have h : ∀ mA : Bool, getQuestions db language qType [] mA =
      getQuestionsNoTagFilter db language qType := by
    intro mA
    unfold getQuestions queryRows getQuestionsNoTagFilter
    rw [List.map_filterMap]
    refine List.filterMap_congr (fun qr _ => ?_)
    by_cases hq : (langOK language qr && typeOK qType qr) = true
    · rw [if_pos hq, if_pos hq, rowOf_noTags]
      rfl
    · rw [if_neg hq, if_neg hq]
      rfl
  exact ⟨h matchAll, (h matchAll).trans (h matchAll2).symm⟩

/-- An output question determines the storage question row it came from when
question identifiers are unique. -/
theorem row_eq_of_id_eq (db : DB) (hids : (db.questions.map QuestionRow.id).Nodup)
    (qr qr2 : QuestionRow) (hqr : qr ∈ db.questions) (hqr2 : qr2 ∈ db.questions)
    (h : qr2.id = qr.id) : qr2 = qr :=
  List.inj_on_of_nodup_map hids hqr2 hqr h

set_option maxRecDepth 8192 in
/-- C1: the claim states the intended ALL-mode semantics, and the code
fails to implement it whenever a language or type filter is present,
because the arguments bind to the wrong placeholders. At the failing
input `GetQuestions("en", "", ["18+", "alcohol"], ALL)` on the seed data:
the intended semantics (`getQuestions`, first conjunct) returns question 2,
which is linked to both tags; but in the query the code actually builds,
the template is the base SELECT, then the ALL-mode join fragment, then the
WHERE clause (second conjunct), so the first three placeholders — all of
them inside the join fragment (third conjunct) — are bound to the first
three arguments `"en", "18+", "alcohol"` (fourth conjunct), while the
values the fragments were written for run tags, count, language (fifth
conjunct), an order different from the argument list (sixth conjunct).
The executed query therefore tests `t.name IN ("en", "18+")`,
`HAVING COUNT(DISTINCT t.name) = "alcohol"` and `q.language = 2` and
returns the empty list instead of question 2. -/
theorem c1_all_mode_binding_bug :
    (∃ out ∈ getQuestions seedDB "en" "" ["18+", "alcohol"] true, out.id = 2) ∧
    (buildQuery "en" "" ["18+", "alcohol"] true).1 =
      baseQuerySelect ++ allModeJoin 2 ++ " WHERE " ++ "q.language = ?" ++
        " GROUP BY q.id" ∧
    countQ (baseQuerySelect ++ allModeJoin 2) = 3 ∧
    (buildQuery "en" "" ["18+", "alcohol"] true).2 =
      [Arg.str "en", Arg.str "18+", Arg.str "alcohol", Arg.int 2] ∧
    textOrderArgs "en" "" ["18+", "alcohol"] true =
      [Arg.str "18+", Arg.str "alcohol", Arg.int 2, Arg.str "en"] ∧
    textOrderArgs "en" "" ["18+", "alcohol"] true ≠
      (buildQuery "en" "" ["18+", "alcohol"] true).2 := by
  refine ⟨by decide, by decide, by decide, by decide, by decide, by decide⟩

/-- C4: in ANY mode with a non-empty tag list, a question (passing the
other filters) appears in the result exactly when at least one requested
tag is among its linked tags — the membership test of the joined tag name
against the requested set. -/
theorem c4_any_mode_membership (db : DB) (language qType : String)
    (tags : List String) (qr : QuestionRow)
    (hids : (db.questions.map QuestionRow.id).Nodup)
    (hne : tags ≠ []) (hqr : qr ∈ db.questions)
    (h1 : langOK language qr = true) (h2 : typeOK qType qr = true) :
    (∃ out ∈ getQuestions db language qType tags false, out.id = qr.id) ↔
      ∃ n ∈ tags, n ∈ linkedTagNames db qr.id := by
  have hiff : ∀ q2 : QuestionRow,
      ((linkedTagNames db q2.id).filter (fun n => decide (n ∈ tags)) ≠ [] ↔
        ∃ n ∈ tags, n ∈ linkedTagNames db q2.id) := by
    intro q2
    rw [Ne, List.filter_eq_nil_iff]
    constructor
    · intro h
      by_contra hno
      push_neg at hno
      exact h (fun n hn hdec => hno n (by simpa using hdec) hn)
    · rintro ⟨n, hn, hln⟩ hall
      exact hall n hln (by simpa using hn)
  constructor
  · rintro ⟨out, hout, hid⟩
    rcases (mem_getQuestions db language qType tags false out).mp hout with
      ⟨qr2, hqr2, _, _, r, hr, rfl⟩
    rw [rowOf_any db tags qr2 hne] at hr
    cases hF : (linkedTagNames db qr2.id).filter (fun n => decide (n ∈ tags)) with
    | nil => rw [hF] at hr; cases hr
    | cons m ms =>
      rw [hF] at hr
      injection hr with hr2
      subst hr2
      have hq2 : qr2 = qr := row_eq_of_id_eq db hids qr qr2 hqr hqr2 hid
      subst hq2
      exact (hiff qr2).mp (by rw [hF]; simp)
  · intro hex
    have hmne := (hiff qr).mpr hex
    cases hF : (linkedTagNames db qr.id).filter (fun n => decide (n ∈ tags)) with
    | nil => exact absurd hF hmne
    | cons m ms =>
      refine ⟨decodeRow ⟨qr.id, qr.language, qr.qtype, qr.task,
        groupConcat (m :: ms)⟩, ?_, rfl⟩
      refine (mem_getQuestions db language qType tags false _).mpr
        ⟨qr, hqr, h1, h2, _, ?_, rfl⟩
      rw [rowOf_any db tags qr hne, hF]

/-- C4 witness: concrete scenario A of the spec — with tags
`18+, alcohol` in ANY mode, question 1 of the seed data qualifies. -/
theorem c4_any_mode_membership_witness :
    (seedDB.questions.map QuestionRow.id).Nodup ∧
    (⟨1, "en", "truth", "Have you ever lied to your best friend?"⟩ : QuestionRow) ∈
      seedDB.questions ∧
    ((∃ out ∈ getQuestions seedDB "en" "" ["18+", "alcohol"] false, out.id = 1) ↔
      ∃ n ∈ ["18+", "alcohol"], n ∈ linkedTagNames seedDB 1) :=
  ⟨by decide, by decide,
    c4_any_mode_membership seedDB "en" "" ["18+", "alcohol"]
      ⟨1, "en", "truth", "Have you ever lied to your best friend?"⟩ (by decide)
      (by decide) (by decide) (by decide) (by decide)⟩

/-- Every run of `AddQuestion` either rolls back, leaving the storage
exactly as it was, or commits the transaction-local state. -/
theorem addQuestion_cases (db : DB) (q : Question) (faults : List Bool) :
    (∃ e, addQuestion db q faults = (db, some e)) ∨
    ∃ db2, addQuestion db q faults = (db2, none) := by
  unfold addQuestion
  dsimp only
  split
  · exact .inl ⟨_, rfl⟩
  · split
    · exact .inl ⟨_, rfl⟩
    · split
      · exact .inl ⟨_, rfl⟩
      · split
        · exact .inl ⟨_, rfl⟩
        · split
          · exact .inl ⟨_, rfl⟩
          · exact .inr ⟨_, rfl⟩

/-- C3: whenever `AddQuestion` returns an error — from any failing step:
question insert, generated-id read, tag lookup, tag insert, association
insert, or commit — the transaction is rolled back and the storage is left
unchanged: no orphaned question row, no partial tag associations. -/
theorem c3_add_question_rollback (db : DB) (q : Question) (faults : List Bool)
    (e : String) (herr : (addQuestion db q faults).2 = some e) :
    (addQuestion db q faults).1 = db := by
  rcases addQuestion_cases db q faults with ⟨e2, he⟩ | ⟨db2, hn⟩
  · rw [he]
  · rw [hn] at herr
    cases herr

/-- C3 witness: a failure injected at the association-insert step leaves the
seed storage untouched and reports the first error. -/
theorem c3_add_question_rollback_witness :
    (addQuestion seedDB ⟨0, "en", "truth", "New one", ["newtag"]⟩
        [false, false, false, false, false, false, true]).2 =
      some "failed to insert question tag" ∧
    (addQuestion seedDB ⟨0, "en", "truth", "New one", ["newtag"]⟩
        [false, false, false, false, false, false, true]).1 = seedDB :=
  ⟨by decide,
    c3_add_question_rollback seedDB ⟨0, "en", "truth", "New one", ["newtag"]⟩
      [false, false, false, false, false, false, true]
      "failed to insert question tag" (by decide)⟩

/-- A successful association insert preserves distinctness of the
`(question_id, tag_id)` pairs: the pair is inserted only when absent. -/
theorem insertAssoc_nodup (cur : DB) (qid tid : Nat) (fault : Bool) (cur2 : DB)
    (hok : insertAssoc cur qid tid fault = .ok cur2)
    (hnd : cur.questionTags.Nodup) : cur2.questionTags.Nodup := by
  unfold insertAssoc at hok
  split at hok
  · cases hok
  · split at hok
    · cases hok
    · injection hok with hok2
      subst hok2
      rename_i hmem
      show (cur.questionTags ++ [(qid, tid)]).Nodup
      rw [List.nodup_append]
      exact ⟨hnd, List.nodup_singleton _, by
        intro x hx
        simp only [List.mem_singleton]
        intro hx2
        subst hx2
        exact hmem hx⟩

/-- The tag loop preserves distinctness of the association pairs. -/
theorem processTags_nodup (qid : Nat) (tagList : List String) :
    ∀ (cur : DB) (fs : List Bool) (cur2 : DB) (fs2 : List Bool),
      processTags qid tagList cur fs = .ok (cur2, fs2) →
      cur.questionTags.Nodup → cur2.questionTags.Nodup := by
  induction tagList with
  | nil =>
    intro cur fs cur2 fs2 hok hnd
    unfold processTags at hok
    injection hok with hok2
    injection hok2 with h1 h2
    subst h1
    exact hnd
  | cons tag rest ih =>
    intro cur fs cur2 fs2 hok hnd
    unfold processTags at hok
    dsimp only at hok
    split at hok
    · cases hok
    · split at hok
      · split at hok
        · cases hok
        · rename_i curA hA
          exact ih curA fs.tail.tail cur2 fs2 hok
            (insertAssoc_nodup cur qid _ _ curA hA hnd)
      · split at hok
        · cases hok
        · split at hok
          · cases hok
          · split at hok
            · cases hok
            · rename_i curA hA
              exact ih curA fs.tail.tail.tail.tail cur2 fs2 hok
                (insertAssoc_nodup _ qid _ _ curA hA hnd)

/-- C8: `AddQuestion` never creates duplicate `(question_id, tag_id)`
association links: if the pairs are distinct before the call they are
distinct after it, for every input — including a tag list naming the same
tag more than once, where the primary-key violation on the second insert
aborts and rolls back the whole operation. -/
theorem c8_no_duplicate_links (db : DB) (q : Question) (faults : List Bool)
    (hnd : db.questionTags.Nodup) :
    ((addQuestion db q faults).1).questionTags.Nodup := by
  unfold addQuestion
  dsimp only
  split
  · exact hnd
  · split
    · exact hnd
    · split
      · exact hnd
      · split
        · exact hnd
        · rename_i cur2 fs2 hP
          split
          · exact hnd
          · exact processTags_nodup (freshQuestionId db) q.tags _ _ cur2 fs2 hP hnd

/-- C8 witness: inserting a question whose tag list repeats a tag name
leaves the association pairs duplicate-free (the call fails and rolls
back). -/
theorem c8_no_duplicate_links_witness :
    seedDB.questionTags.Nodup ∧
    ((addQuestion seedDB ⟨0, "en", "truth", "New one", ["dup", "dup"]⟩
        []).1).questionTags.Nodup :=
  ⟨by decide,
    c8_no_duplicate_links seedDB ⟨0, "en", "truth", "New one", ["dup", "dup"]⟩ []
      (by decide)⟩

set_option maxRecDepth 8192 in
/-- C5: the claim is contradicted by the code: `GetQuestions` checks the
error of every `rows.Scan` but never calls `rows.Err()` after the loop, so
a failure of the row iteration itself — which makes `rows.Next()` return
`false` with the error held for `rows.Err()` — ends the loop silently and
the call returns the rows collected so far as a success. At the failing
input (no filters on the seed data, iteration failing before the second
row) the run returns a one-element prefix of the four-question result with
no error: a truncated successful result. -/
theorem c5_truncated_result_bug :
    runGetQuestions seedDB "" "" [] false false [false, true] [] =
      .ok ((getQuestions seedDB "" "" [] false).take 1) ∧
    (getQuestions seedDB "" "" [] false).length = 4 := by
  refine ⟨by rfl, by decide⟩

/-! ## Counting placeholders in the built query -/

theorem data_append (a b : String) : (a ++ b).data = a.data ++ b.data := by
  cases a
  cases b
  rfl

theorem countQ_append (a b : String) : countQ (a ++ b) = countQ a + countQ b := by
  unfold countQ
  rw [data_append, List.count_append]

theorem countQ_repeatCommaQ (n : Nat) : countQ (repeatCommaQ n) = n := by
  induction n with
  | zero => rfl
  | succ n ih =>
    show countQ (",?" ++ repeatCommaQ n) = n + 1
    rw [countQ_append, ih]
    show 1 + n = n + 1
    omega

theorem countQ_allModeJoin (n : Nat) : countQ (allModeJoin n) = n - 1 + 2 := by
  unfold allModeJoin
  rw [countQ_append, countQ_append, countQ_repeatCommaQ]
  show 1 + (n - 1) + 1 = n - 1 + 2
  omega

theorem countQ_anyModeCond (n : Nat) : countQ (anyModeCond n) = n - 1 + 1 := by
  unfold anyModeCond
  rw [countQ_append, countQ_append, countQ_repeatCommaQ]
  show 1 + (n - 1) + 0 = n - 1 + 1
  omega

theorem countQ_joinAnd (cs : List String) :
    countQ (joinAnd cs) = (cs.map countQ).sum := by
  induction cs with
  | nil => rfl
  | cons c cs ih =>
    cases cs with
    | nil =>
      show countQ c = countQ c + 0
      omega
    | cons d ds =>
      have e : joinAnd (c :: d :: ds) = c ++ " AND " ++ joinAnd (d :: ds) := rfl
      rw [e, countQ_append, countQ_append, ih]
      have h0 : countQ " AND " = 0 := rfl
      rw [h0]
      simp only [List.map_cons, List.sum_cons]
      omega

set_option maxRecDepth 8192 in
/-- C7 counterexample: the claim says the ordered argument list matches
the placeholder order (language, then type, then the tags, then the
count). At the call with language `"en"` and tags `["a", "b"]` in ALL
mode, the template places the join fragment — carrying the two tag
placeholders and the count placeholder, three placeholders in all —
before the WHERE clause carrying the language placeholder, so the values
in placeholder order run tags, count, language, while the argument list
starts with the language: the two orders differ. -/
theorem c7_argument_order_counterexample :
    (buildQuery "en" "" ["a", "b"] true).1 =
      baseQuerySelect ++ allModeJoin 2 ++ " WHERE " ++ "q.language = ?" ++
        " GROUP BY q.id" ∧
    countQ (baseQuerySelect ++ allModeJoin 2) = 3 ∧
    countQ ("q.language = ?") = 1 ∧
    (buildQuery "en" "" ["a", "b"] true).2 =
      [Arg.str "en", Arg.str "a", Arg.str "b", Arg.int 2] ∧
    textOrderArgs "en" "" ["a", "b"] true =
      [Arg.str "a", Arg.str "b", Arg.int 2, Arg.str "en"] ∧
    (buildQuery "en" "" ["a", "b"] true).2 ≠ textOrderArgs "en" "" ["a", "b"] true := by
  refine ⟨by decide, by decide, by decide, by decide, by decide, by decide⟩

set_option maxRecDepth 8192 in
/-- C7 amended: the query builder never lets user-supplied values enter
the query text: two calls that agree on which filters are present, on the
tag count and on the match mode produce the identical template; the
argument list is exactly the language filter, then the type filter, then
the tag names, then — in ALL mode — the tag count; the number of `?`
placeholders in the template equals the length of the argument list; and
the argument order matches the placeholder order of the template except
in ALL mode with a non-empty tag list and a language or type filter,
where the placeholders run tags, count, language, type against arguments
running language, type, tags, count. -/
theorem c7_template_and_argument_order (language qType language2 qType2 : String)
    (tags tags2 : List String) (matchAll : Bool)
    (hl : language = "" ↔ language2 = "")
    (ht : qType = "" ↔ qType2 = "")
    (hn : tags.length = tags2.length) :
    (buildQuery language qType tags matchAll).1 =
      (buildQuery language2 qType2 tags2 matchAll).1 ∧
    (buildQuery language qType tags matchAll).2 =
      (if language = "" then [] else [Arg.str language]) ++
      (if qType = "" then [] else [Arg.str qType]) ++
      (if tags.length > 0 then
        (if matchAll then tags.map Arg.str ++ [Arg.int tags.length]
          else tags.map Arg.str)
        else []) ∧
    countQ (buildQuery language qType tags matchAll).1 =
      ((buildQuery language qType tags matchAll).2).length ∧
    (matchAll = false ∨ tags = [] ∨ (language = "" ∧ qType = "") →
      textOrderArgs language qType tags matchAll =
        (buildQuery language qType tags matchAll).2) := by
  have hBase : countQ baseQuerySelect = 0 := rfl
  have hWhere : countQ " WHERE " = 0 := rfl
  have hGroup : countQ " GROUP BY q.id" = 0 := rfl
  have hLang : countQ "q.language = ?" = 1 := rfl
  have hType : countQ "q.type = ?" = 1 := rfl
  refine ⟨?_, rfl, ?_, ?_⟩
  · unfold buildQuery
    dsimp only
    rw [hn]
    by_cases h1 : language2 = ""
    · have h1l : language = "" := hl.mpr h1
      by_cases h2 : qType2 = ""
      · have h2l : qType = "" := ht.mpr h2
        simp [h1, h1l, h2, h2l]
      · have h2l : ¬ qType = "" := fun h => h2 (ht.mp h)
        simp [h1, h1l, h2, h2l]
    · have h1l : ¬ language = "" := fun h => h1 (hl.mp h)
      by_cases h2 : qType2 = ""
      · have h2l : qType = "" := ht.mpr h2
        simp [h1, h1l, h2, h2l]
      · have h2l : ¬ qType = "" := fun h => h2 (ht.mp h)
        simp [h1, h1l, h2, h2l]
  · unfold buildQuery
    dsimp only
    by_cases h1 : language = "" <;> by_cases h2 : qType = "" <;>
      by_cases h3 : tags.length > 0 <;> cases matchAll <;>
        simp [h1, h2, h3, countQ_append, countQ_joinAnd, countQ_allModeJoin,
          countQ_anyModeCond, hBase, hWhere, hGroup, hLang, hType] <;>
        omega
  · rintro (h4 | h4 | ⟨h4l, h4t⟩)
    · subst h4
      by_cases h3 : tags.length > 0 <;>
        simp [textOrderArgs, buildQuery, h3]
    · subst h4
      simp [textOrderArgs, buildQuery]
    · by_cases hm : matchAll <;> by_cases h3 : tags.length > 0 <;>
        simp [textOrderArgs, buildQuery, h4l, h4t, hm, h3]

set_option maxRecDepth 8192 in
/-- C7 witness: two ANY-mode calls with different filter values but the
same filter shape share the template, whose placeholder count matches the
argument list, and in ANY mode the arguments align with the placeholder
order. -/
theorem c7_template_and_argument_order_witness :
    ("en" = "" ↔ "de" = "") ∧ ("" = "" ↔ ("" : String) = "") ∧
    (["a", "b"].length = ["x", "y"].length) ∧
    ((buildQuery "en" "" ["a", "b"] false).1 = (buildQuery "de" "" ["x", "y"] false).1 ∧
    (buildQuery "en" "" ["a", "b"] false).2 =
      (if ("en" : String) = "" then [] else [Arg.str "en"]) ++
      (if ("" : String) = "" then [] else [Arg.str ""]) ++
      (if ["a", "b"].length > 0 then
        (if false then ["a", "b"].map Arg.str ++ [Arg.int ["a", "b"].length]
          else ["a", "b"].map Arg.str)
        else []) ∧
    countQ (buildQuery "en" "" ["a", "b"] false).1 =
      ((buildQuery "en" "" ["a", "b"] false).2).length ∧
    (false = false ∨ ["a", "b"] = ([] : List String) ∨
        (("en" : String) = "" ∧ ("" : String) = "") →
      textOrderArgs "en" "" ["a", "b"] false =
        (buildQuery "en" "" ["a", "b"] false).2)) :=
  ⟨by decide, by decide, by decide,
    c7_template_and_argument_order "en" "" "de" "" ["a", "b"] ["x", "y"] false
      (by decide) (by decide) (by decide)⟩

end TruthOrDare
